import Mathlib

/-!
Shallow embedding of `expired_link_bot.py` and `prices.py` (the
/r/FreeEbooks expired-link bot) and verification of its specification.

Python strings are modelled as `List Char` (`PyStr`); the filesystem as a
partial map from filenames to file contents; network fetch, charset
decoding and regex search as oracle functions passed to `GetPrice`;
`pylru.lrucache` as a capacity-bounded list of keys in MRU-to-LRU order.
-/

/-- Python `str` modelled as a list of characters. -/
abbrev PyStr := List Char

/-- Python whitespace test used by `str.strip()`. -/
def pyIsSpace (c : Char) : Bool := c.isWhitespace

/-- Python `s.strip()`: remove whitespace from both ends. -/
def pyStrip (s : PyStr) : PyStr :=
  ((s.dropWhile pyIsSpace).reverse.dropWhile pyIsSpace).reverse

/-- Python `s.startswith(p)` for a single prefix string. -/
def startswith (s p : PyStr) : Bool := p.isPrefixOf s

/-- Python `s.startswith((p1, ..., pn))`: true if any listed string
begins `s`. -/
def startswithAny (s : PyStr) (ps : List PyStr) : Bool :=
  ps.any (fun p => p.isPrefixOf s)

/-- Python `f.readlines()` applied to a whole file content: split after
each newline, keeping the newline at the end of each line; a final
fragment with no newline forms a last line. -/
def readlines : PyStr → List PyStr
  | [] => []
  | c :: rest =>
    if c = '\n' then ['\n'] :: readlines rest
    else
      match readlines rest with
      | [] => [[c]]
      | l :: ls => (c :: l) :: ls

/-- `MAX_SUBMISSIONS = 200` from `expired_link_bot.py`: number of
submissions to examine and the size of both caches. -/
def MAX_SUBMISSIONS : Nat := 200

def NEEDS_REVIEW_CACHE_FILE : PyStr := "needs_review_cache.txt".toList

def ALREADY_EXPIRED_CACHE_FILE : PyStr := "already_expired_cache.txt".toList

def EXPIRED_FLAIR : PyStr := "Expired".toList

def EXPIRED_CSS_CLASS : PyStr := "closed".toList

/-- `pylru.lrucache`: a bounded key set in most-recently-used-first
order. Values are the dummy `True` throughout the bot, so only keys are
modelled. -/
structure LruCache where
  capacity : Nat
  keys : List PyStr
  deriving DecidableEq, Repr

/-- A fresh empty `pylru.lrucache(cap)`. -/
def lruEmpty (cap : Nat) : LruCache := ⟨cap, []⟩

/-- `cache[key] = value` in pylru: mark `key` present and
most-recently-used, evicting the least-recently-used entry when the
capacity would be exceeded. -/
def lruSet (c : LruCache) (k : PyStr) : LruCache :=
  ⟨c.capacity, (k :: c.keys.erase k).take c.capacity⟩

/-- `key in cache` in pylru: membership test; does not change recency
order. -/
def lruContains (c : LruCache) (k : PyStr) : Bool := c.keys.contains k

/-- The filesystem: filename to file content, `none` when the file is
missing or unreadable. -/
abbrev Fs := PyStr → Option PyStr

/-- Filesystem operations performed by `StoreCacheToFile`, kept as a
trace so that intermediate states are observable. -/
inductive FsOp where
  | openTrunc (name : PyStr)
  | write (name : PyStr) (data : PyStr)
  | close (name : PyStr)
  | rename (src dst : PyStr)
  deriving DecidableEq, Repr

/-- Effect of one filesystem operation on the filesystem state. -/
def applyOp (fs : Fs) : FsOp → Fs
  | .openTrunc n => fun m => if m = n then some [] else fs m
  | .write n d => fun m => if m = n then some (((fs n).getD []) ++ d) else fs m
  | .close _ => fs
  | .rename src dst => fun m =>
      if m = dst then fs src else if m = src then none else fs m

/-- `LoadCacheFromFile(filename)`: read the file's lines; on failure
warn and return an empty cache; otherwise insert the stripped lines in
reverse file order so the file's first line ends most recently used. -/
def LoadCacheFromFile (fs : Fs) (filename : PyStr) : LruCache :=
  match fs filename with
  | none => lruEmpty MAX_SUBMISSIONS
  | some contents =>
      ((readlines contents).reverse).foldl
        (fun cache line => lruSet cache (pyStrip line)) (lruEmpty MAX_SUBMISSIONS)

/-- The write operations of the `StoreCacheToFile` loop: for each key,
most recently used first, write the key and then a newline to the
temporary file. -/
def writeOps (tmp_filename : PyStr) (keys : List PyStr) : List FsOp :=
  (keys.map
    (fun key => [FsOp.write tmp_filename key, FsOp.write tmp_filename ['\n']])).flatten

/-- The trace of filesystem operations of `StoreCacheToFile(cache,
filename)`: open `filename + ".tmp"` for writing (truncating it), write
each key followed by a newline from most to least recently used, close,
then rename the temporary file onto `filename`. -/
def storeTrace (cache : LruCache) (filename : PyStr) : List FsOp :=
  let tmp_filename := filename ++ ".tmp".toList
  FsOp.openTrunc tmp_filename ::
    (writeOps tmp_filename cache.keys ++
      [FsOp.close tmp_filename, FsOp.rename tmp_filename filename])

/-- `StoreCacheToFile(cache, filename)`: the filesystem after running
the whole store trace. -/
def StoreCacheToFile (fs : Fs) (cache : LruCache) (filename : PyStr) : Fs :=
  (storeTrace cache filename).foldl applyOp fs

/-- The file content `StoreCacheToFile` produces: each key, most
recently used first, followed by a newline. -/
def cacheFileContent (keys : List PyStr) : PyStr :=
  (keys.map (fun k => k ++ ['\n'])).flatten

/-- Fuel-driven worker for Python `s.split(sep)`. -/
def splitSubGo (sep : PyStr) : Nat → PyStr → PyStr → List PyStr
  | 0, acc, s => [acc.reverse ++ s]
  | _ + 1, acc, [] => [acc.reverse]
  | fuel + 1, acc, c :: rest =>
    if sep.isPrefixOf (c :: rest) then
      acc.reverse :: splitSubGo sep fuel [] ((c :: rest).drop sep.length)
    else splitSubGo sep fuel (c :: acc) rest

/-- Python `s.split(sep)` for a non-empty separator substring. -/
def pySplit (s sep : PyStr) : List PyStr := splitSubGo sep s.length [] s

/-- `encoding.split("charset=")[-1]` from `GetPrice`. -/
def extractEncoding (typeheader : PyStr) : PyStr :=
  (pySplit typeheader "charset=".toList).getLastD []

namespace ExpiredLinkBot

/-- `GetPriceSelector(url)` from `expired_link_bot.py`: the regex whose
first group holds the price on the matching site, or the empty string
when the site is not recognised. Amazon Mobile links are handled first,
then all other Amazon links as though they are not mobile. -/
def GetPriceSelector (url : PyStr) : PyStr :=
  if startswith url "http://www.amazon.com/gp/aw/d/".toList then
    "<b>Price:</b>&nbsp;([^&]*)&nbsp;<br />".toList
  else if startswithAny url ["http://www.amazon.com/".toList,
                             "http://amzn.com/".toList,
                             "http://www.amazon.co.uk/".toList,
                             "https://www.amazon.co.uk/".toList,
                             "http://www.amazon.ca/".toList] then
    "\\s+class=\"priceLarge\"\\s*>([^<]*)<".toList
  else if startswithAny url ["http://www.smashwords.com/".toList,
                             "https://www.smashwords.com/".toList] then
    "class=\"panel-title text-center\">\\s*Price:([^<]*)<".toList
  else if startswith url "http://www.barnesandnoble.com/".toList then
    "itemprop=\"price\" data-bntrack=\"Price\" data-bntrack-event=\"click\">([^<]*)<".toList
  else if startswith url "http://bookshout.com".toList then
    "<span>Our Price:</span>([^<]*)</p>".toList
  else []

/-- `GetPrice(url)` from `expired_link_bot.py`. The fetch (urlopen +
read + typeheader), the charset decode and the regex search are oracles:
`none` models the step raising an exception (or `re.search` finding no
match, so `.group(1)` raises); the surrounding `try/except` converts any
failure into the empty string. When no selector is known the function
returns the empty string before any fetch. -/
def GetPrice (fetch : PyStr → Option (PyStr × PyStr))
    (decode : PyStr → PyStr → Option PyStr)
    (search : PyStr → PyStr → Option PyStr) (url : PyStr) : PyStr :=
  let price_selector := GetPriceSelector url
  if price_selector.isEmpty then []
  else
    match fetch url with
    | none => []
    | some (html, typeheader) =>
      let encoding := extractEncoding typeheader
      match decode html encoding with
      | none => []
      | some decoded =>
        match search price_selector decoded with
        | none => []
        | some group1 => pyStrip group1

/-- `IsKnownFree(url)` from `expired_link_bot.py`: whether the site is
known to host only permanently free ebooks. -/
def IsKnownFree (url : PyStr) : Bool :=
  startswithAny url ["http://ebooks.adelaide.edu.au/".toList,
                     "http://www.gutenberg.org/".toList,
                     "http://gutenberg.org/".toList,
                     "https://archive.org/".toList,
                     "http://www.topfreebooks.org/".toList,
                     "http://www.feedbooks.com/book/".toList,
                     "http://www.feedbooks.com/userbook/".toList,
                     "https://librivox.org/".toList,
                     "https://www.librivox.org/".toList,
                     "http://podiobooks.com/".toList,
                     "http://quirkystories.com/".toList,
                     "https://openlibrary.org/".toList]

end ExpiredLinkBot

namespace Prices

/-- `GetPriceSelector(url)` from `prices.py`. -/
def GetPriceSelector (url : PyStr) : PyStr :=
  if startswith url "http://www.amazon.com/gp/aw/d/".toList then
    "<b>Price:</b>&nbsp;([^&]*)&nbsp;<br />".toList
  else if startswithAny url ["http://www.amazon.com/".toList,
                             "https://www.amazon.com/".toList,
                             "http://amzn.com/".toList,
                             "https://amzn.com/".toList,
                             "http://www.amazon.co.uk/".toList,
                             "https://www.amazon.co.uk/".toList,
                             "http://www.amazon.ca/".toList,
                             "https://www.amazon.ca/".toList] then
    "\\s+class=\"priceLarge\"\\s*>([^<]*)<".toList
  else if startswithAny url ["http://www.smashwords.com/".toList,
                             "https://www.smashwords.com/".toList] then
    "class=\"panel-title text-center\">\\s*P?r?i?c?e?:?([^<]*)<".toList
  else if startswith url "http://www.barnesandnoble.com/".toList then
    "itemprop=\"price\" data-bntrack=\"Price\" data-bntrack-event=\"click\">([^<]*)<".toList
  else if startswith url "http://bookshout.com".toList then
    "<span>Our Price:</span>([^<]*)</p>".toList
  else []

/-- `GetPrice(url)` from `prices.py`; same oracle convention as
`ExpiredLinkBot.GetPrice`. -/
def GetPrice (fetch : PyStr → Option (PyStr × PyStr))
    (decode : PyStr → PyStr → Option PyStr)
    (search : PyStr → PyStr → Option PyStr) (url : PyStr) : PyStr :=
  let price_selector := GetPriceSelector url
  if price_selector.isEmpty then []
  else
    match fetch url with
    | none => []
    | some (html, typeheader) =>
      let encoding := extractEncoding typeheader
      match decode html encoding with
      | none => []
      | some decoded =>
        match search price_selector decoded with
        | none => []
        | some group1 => pyStrip group1

/-- `IsKnownFree(url)` from `prices.py`. -/
def IsKnownFree (url : PyStr) : Bool :=
  startswithAny url ["http://ebooks.adelaide.edu.au/".toList,
                     "http://www.gutenberg.org/".toList,
                     "http://gutenberg.org/".toList,
                     "https://archive.org/".toList,
                     "http://www.topfreebooks.org/".toList,
                     "http://www.feedbooks.com/book/".toList,
                     "http://www.feedbooks.com/userbook/".toList,
                     "https://librivox.org/".toList,
                     "https://www.librivox.org/".toList,
                     "http://podiobooks.com/".toList,
                     "http://quirkystories.com/".toList,
                     "https://openlibrary.org/".toList]

end Prices

/-- A Reddit submission as read by the bot: its URL, title, permalink
and (possibly absent) link flair CSS class. -/
structure Submission where
  url : PyStr
  title : PyStr
  permalink : PyStr
  linkFlairCssClass : Option PyStr
  deriving DecidableEq, Repr

/-- External mutations `CheckSubmissions` can perform on Reddit. -/
inductive Effect where
  | addComment (text : PyStr)
  | setFlair (flair cssClass : PyStr)
  deriving DecidableEq, Repr

/-- The `EXPIRED_MESSAGE` template with its two `%s` slots filled by the
current price and the submission's permalink. -/
def EXPIRED_MESSAGE (price permalink : PyStr) : PyStr :=
  "\nThis link points to an ebook that is no longer free (current price: ".toList ++
  price ++
  "), and\nconsequently has been marked as expired.\n\nI am a bot. If I have made a mistake, please [message the\nmoderators](http://www.reddit.com/message/compose?to=/r/FreeEBOOKS&subject=expired_link_bot&message=".toList ++
  permalink ++ ").\n".toList

/-- `any(digit in price for digit in "123456789")`: whether any nonzero
digit occurs in the price. -/
def hasNonzeroDigit (price : PyStr) : Bool :=
  "123456789".toList.any (fun digit => price.contains digit)

/-- The mutable state of one `CheckSubmissions` run: the two output
lists (submissions carry the rank assigned in the loop; modified ones
also carry their recorded `list_price`), the two recency caches, and
the Reddit-side effects performed so far. -/
structure CheckState where
  modified : List (Submission × Nat × PyStr)
  needsReview : List (Submission × Nat)
  needsReviewCache : LruCache
  alreadyExpiredCache : LruCache
  effects : List Effect
  deriving DecidableEq, Repr

/-- One iteration of the `CheckSubmissions` loop on `(rank,
submission)`: encode the URL with `iri2uri`, skip posts already marked
expired (unless on test data), classify by extracted price, and update
the state exactly as the Python loop body does. -/
def processSubmission (TEST_DATA DRY_RUN : Bool)
    (fetch : PyStr → Option (PyStr × PyStr))
    (decode : PyStr → PyStr → Option PyStr)
    (search : PyStr → PyStr → Option PyStr)
    (iri2uri : PyStr → PyStr)
    (st : CheckState) (ranked : Nat × Submission) : CheckState :=
  let rank := ranked.1
  let submission : Submission := { ranked.2 with url := iri2uri ranked.2.url }
  if (submission.linkFlairCssClass = some EXPIRED_CSS_CLASS ∨
      lruContains st.alreadyExpiredCache submission.url) ∧ ¬ TEST_DATA then
    st
  else
    let price := ExpiredLinkBot.GetPrice fetch decode search submission.url
    if price.isEmpty then
      if ExpiredLinkBot.IsKnownFree submission.url then st
      else
        let needsReview :=
          if ¬ lruContains st.needsReviewCache submission.url then
            st.needsReview ++ [(submission, rank)]
          else st.needsReview
        { st with needsReview := needsReview,
                  needsReviewCache := lruSet st.needsReviewCache submission.url }
    else if ¬ hasNonzeroDigit price then st
    else
      let st1 :=
        if ¬ DRY_RUN then
          { st with
              effects := st.effects ++
                [Effect.addComment (EXPIRED_MESSAGE price submission.permalink),
                 Effect.setFlair EXPIRED_FLAIR EXPIRED_CSS_CLASS],
              alreadyExpiredCache := lruSet st.alreadyExpiredCache submission.url }
        else st
      { st1 with modified := st1.modified ++ [(submission, rank, price)] }

/-- `CheckSubmissions(subreddit)`: load both caches from disk, process
the hot listing (at most `MAX_SUBMISSIONS` posts, ranks from
`enumerate`), and, unless this is a dry run or a test-data run, persist
both caches back to disk. Returns the final state together with the
resulting filesystem. -/
def CheckSubmissions (TEST_DATA DRY_RUN : Bool)
    (fetch : PyStr → Option (PyStr × PyStr))
    (decode : PyStr → PyStr → Option PyStr)
    (search : PyStr → PyStr → Option PyStr)
    (iri2uri : PyStr → PyStr)
    (fs : Fs) (listing : List Submission) : CheckState × Fs :=
  let needs_review_cache := LoadCacheFromFile fs NEEDS_REVIEW_CACHE_FILE
  let already_expired_cache := LoadCacheFromFile fs ALREADY_EXPIRED_CACHE_FILE
  let init : CheckState := ⟨[], [], needs_review_cache, already_expired_cache, []⟩
  let final := ((listing.take MAX_SUBMISSIONS).enum).foldl
      (processSubmission TEST_DATA DRY_RUN fetch decode search iri2uri) init
  let fs' :=
    if ¬ DRY_RUN ∧ ¬ TEST_DATA then
      StoreCacheToFile
        (StoreCacheToFile fs final.alreadyExpiredCache ALREADY_EXPIRED_CACHE_FILE)
        final.needsReviewCache NEEDS_REVIEW_CACHE_FILE
    else fs
  (final, fs')

/-- Fixture: a fetch oracle that always succeeds with empty content. -/
def sampleFetch : PyStr → Option (PyStr × PyStr) := fun _ => some ([], [])

/-- Fixture: a fetch oracle whose every request fails. -/
def sampleNoneFetch : PyStr → Option (PyStr × PyStr) := fun _ => none

/-- Fixture: a decode oracle that always succeeds. -/
def sampleDecode : PyStr → PyStr → Option PyStr := fun _ _ => some []

/-- Fixture: a search oracle finding a paid price. -/
def samplePaidSearch : PyStr → PyStr → Option PyStr := fun _ _ => some "$12.34".toList

/-- Fixture: a search oracle finding an all-zero price. -/
def sampleFreeSearch : PyStr → PyStr → Option PyStr := fun _ _ => some "$0.00".toList

/-- Fixture: a submission on a site with a known price pattern. -/
def sampleSub : Submission := ⟨"http://bookshout.com/b/3".toList, [], [], none⟩

/-- Fixture: a submission on a known-free site. -/
def sampleFreeSub : Submission := ⟨"http://www.gutenberg.org/ebooks/1".toList, [], [], none⟩

/-- Fixture: a submission on an unsupported site. -/
def sampleUnknownSub : Submission := ⟨"http://example.com/book".toList, [], [], none⟩

/-- Fixture: the state at the start of a run over empty caches. -/
def sampleState : CheckState :=
  ⟨[], [], lruEmpty MAX_SUBMISSIONS, lruEmpty MAX_SUBMISSIONS, []⟩

/-- Fixture: a URL encoder that changes nothing. -/
def idUri : PyStr → PyStr := fun u => u

/-! ## Lemmas about the LRU cache -/

lemma lruSet_capacity (c : LruCache) (k : PyStr) :
    (lruSet c k).capacity = c.capacity := rfl

lemma lruSet_keys_length_le (c : LruCache) (k : PyStr) :
    (lruSet c k).keys.length ≤ c.capacity := by
  simp only [lruSet, List.length_take]
  exact min_le_left _ _

lemma foldl_lruSet_capacity (ks : List PyStr) (c : LruCache) :
    (ks.foldl lruSet c).capacity = c.capacity := by
  induction ks generalizing c with
  | nil => rfl
  | cons k ks ih =>
    simp only [List.foldl_cons]
    exact (ih (lruSet c k)).trans rfl

lemma foldl_lruSet_length_le (ks : List PyStr) (c : LruCache)
    (h : c.keys.length ≤ c.capacity) :
    (ks.foldl lruSet c).keys.length ≤ c.capacity := by
  induction ks generalizing c with
  | nil => exact h
  | cons k ks ih =>
    simp only [List.foldl_cons]
    exact ih (lruSet c k) (lruSet_keys_length_le c k)

lemma take_cons_take (a : PyStr) (l : List PyStr) (C : Nat) :
    (a :: l.take C).take C = (a :: l).take C := by
  cases C with
  | zero => rfl
  | succ n =>
    simp only [List.take_succ_cons, List.take_take]
    rw [min_eq_left (Nat.le_succ n)]

/-- Folding distinct keys into an empty capacity-`C` cache keeps exactly
the last `C` keys, newest first. -/
lemma foldl_lruSet_empty (C : Nat) (ks : List PyStr) (h : ks.Nodup) :
    (ks.foldl lruSet (lruEmpty C)).keys = ks.reverse.take C := by
  induction ks using List.reverseRecOn with
  | nil => simp [lruEmpty]
  | append_singleton ks a ih =>
    have hks : ks.Nodup := h.of_append_left
    have ha : a ∉ ks := by
      have := List.disjoint_of_nodup_append h
      intro hmem
      exact this hmem (List.mem_singleton_self a)
    rw [List.foldl_append]
    simp only [List.foldl_cons, List.foldl_nil]
    have hcap : (ks.foldl lruSet (lruEmpty C)).capacity = C :=
      foldl_lruSet_capacity ks (lruEmpty C)
    have hkeys := ih hks
    have hnotmem : a ∉ List.take C ks.reverse := by
      intro hmem
      exact ha (by simpa using ((List.take_sublist _ _).mem hmem))
    simp only [lruSet, hcap, hkeys, List.erase_of_not_mem hnotmem]
    rw [List.reverse_append, List.reverse_singleton, List.singleton_append]
    exact take_cons_take a ks.reverse C

/-- On a missing or unreadable file, `LoadCacheFromFile` falls back to
the empty cache. -/
lemma LoadCacheFromFile_none (fs : Fs) (f : PyStr) (h : fs f = none) :
    LoadCacheFromFile fs f = lruEmpty MAX_SUBMISSIONS := by
  simp [LoadCacheFromFile, h]

/-- On a readable file, `LoadCacheFromFile` folds insertion of the
stripped lines in reverse file order into an empty cache. -/
lemma LoadCacheFromFile_some (fs : Fs) (f contents : PyStr) (h : fs f = some contents) :
    LoadCacheFromFile fs f =
      ((readlines contents).reverse.map pyStrip).foldl lruSet
        (lruEmpty MAX_SUBMISSIONS) := by
  simp [LoadCacheFromFile, h, List.foldl_map, List.foldr_map]

/-- C4: the recency cache is bounded by its capacity (`MAX_SUBMISSIONS`
= 200 for the bot's caches, also after `LoadCacheFromFile`), and
inserting `C + k` distinct keys into an empty capacity-`C` cache leaves
exactly the `C` most recently touched keys present and the `k` least
recently touched keys absent. -/
theorem c4_lru_bounded_eviction :
    MAX_SUBMISSIONS = 200 ∧
    (∀ (ks : List PyStr) (c : LruCache), c.keys.length ≤ c.capacity →
      (ks.foldl lruSet c).keys.length ≤ c.capacity) ∧
    (∀ (fs : Fs) (f : PyStr),
      (LoadCacheFromFile fs f).capacity = MAX_SUBMISSIONS ∧
      (LoadCacheFromFile fs f).keys.length ≤ MAX_SUBMISSIONS) ∧
    (∀ (C k : Nat) (ks : List PyStr), ks.Nodup → ks.length = C + k → 0 < k →
      (ks.foldl lruSet (lruEmpty C)).keys = (ks.drop k).reverse ∧
      (∀ x ∈ ks.drop k, x ∈ (ks.foldl lruSet (lruEmpty C)).keys) ∧
      (∀ x ∈ ks.take k, x ∉ (ks.foldl lruSet (lruEmpty C)).keys)) := by
  refine ⟨rfl, foldl_lruSet_length_le, ?_, ?_⟩
  · intro fs f
    cases hfs : fs f with
    | none =>
      rw [LoadCacheFromFile_none fs f hfs]
      exact ⟨rfl, by simp [lruEmpty]⟩
    | some contents =>
      rw [LoadCacheFromFile_some fs f contents hfs]
      exact ⟨foldl_lruSet_capacity _ _, foldl_lruSet_length_le _ _ (by simp [lruEmpty])⟩
  · intro C k ks hnd hlen hk
    have hkeys : (ks.foldl lruSet (lruEmpty C)).keys = (ks.drop k).reverse := by
      rw [foldl_lruSet_empty C ks hnd, List.take_reverse, hlen]
      congr 2
      omega
    refine ⟨hkeys, ?_, ?_⟩
    · intro x hx
      rw [hkeys, List.mem_reverse]
      exact hx
    · intro x hx hmem
      rw [hkeys, List.mem_reverse] at hmem
      exact List.disjoint_take_drop hnd (le_refl k) hx hmem

/-- Witness for C4 at concrete inputs: three distinct keys into a
capacity-2 cache keep the two newest. -/
theorem c4_witness :
    ((([ ['a'], ['b'], ['c'] ] : List PyStr).foldl lruSet (lruEmpty 2)).keys
      = (([ ['a'], ['b'], ['c'] ] : List PyStr).drop 1).reverse) :=
  (c4_lru_bounded_eviction.2.2.2 2 1 [ ['a'], ['b'], ['c'] ]
    (by decide) (by decide) (by decide)).1

/-! ## Lemmas about `StoreCacheToFile` -/

lemma tmp_filename_ne (f : PyStr) : f ++ ".tmp".toList ≠ f := by
  intro h
  have := congrArg List.length h
  simp [List.length_append] at this

lemma foldl_applyOp_const (ops : List FsOp) (fs : Fs) (x : PyStr)
    (h : ∀ op ∈ ops, ∀ g : Fs, applyOp g op x = g x) :
    (ops.foldl applyOp fs) x = fs x := by
  induction ops generalizing fs with
  | nil => rfl
  | cons op ops ih =>
    simp only [List.foldl_cons]
    rw [ih (applyOp fs op) (fun o ho g => h o (List.mem_cons_of_mem _ ho) g)]
    exact h op (List.mem_cons_self _ _) fs

lemma writeOps_mem (tmp : PyStr) (keys : List PyStr) (op : FsOp)
    (hop : op ∈ writeOps tmp keys) : ∃ d, op = FsOp.write tmp d := by
  simp only [writeOps, List.mem_flatten, List.mem_map] at hop
  obtain ⟨l, ⟨k, _, rfl⟩, hopl⟩ := hop
  rcases List.mem_cons.mp hopl with h1 | h1
  · exact ⟨k, h1⟩
  · rcases List.mem_cons.mp h1 with h2 | h2
    · exact ⟨['\n'], h2⟩
    · exact absurd h2 (List.not_mem_nil op)

lemma applyOp_write_ne (g : Fs) (n d x : PyStr) (hx : x ≠ n) :
    applyOp g (FsOp.write n d) x = g x := by
  simp [applyOp, hx]

lemma applyOp_openTrunc_ne (g : Fs) (n x : PyStr) (hx : x ≠ n) :
    applyOp g (FsOp.openTrunc n) x = g x := by
  simp [applyOp, hx]

lemma applyOp_close_eq (g : Fs) (n : PyStr) : applyOp g (FsOp.close n) = g := rfl

lemma applyOp_rename_dst (g : Fs) (s d : PyStr) :
    applyOp g (FsOp.rename s d) d = g s := by
  simp [applyOp]

/-- Folding the per-key write operations appends the cache file content
to the temporary file. -/
lemma foldl_writeOps_self (keys : List PyStr) (tmp : PyStr) (fs : Fs) (init : PyStr)
    (h : fs tmp = some init) :
    ((writeOps tmp keys).foldl applyOp fs) tmp = some (init ++ cacheFileContent keys) := by
  induction keys generalizing fs init with
  | nil => simp [writeOps, cacheFileContent, h]
  | cons k ks ih =>
    simp only [writeOps, List.map_cons, List.flatten_cons, List.cons_append,
      List.nil_append, List.foldl_cons] at ih ⊢
    have h2 : (applyOp (applyOp fs (FsOp.write tmp k)) (FsOp.write tmp ['\n'])) tmp
        = some ((init ++ k) ++ ['\n']) := by
      simp [applyOp, h]
    rw [ih _ ((init ++ k) ++ ['\n']) h2]
    simp [cacheFileContent, List.append_assoc]

/-- The per-key write operations leave every other path unchanged. -/
lemma foldl_writeOps_other (keys : List PyStr) (tmp : PyStr) (fs : Fs) (x : PyStr)
    (hx : x ≠ tmp) :
    ((writeOps tmp keys).foldl applyOp fs) x = fs x := by
  apply foldl_applyOp_const
  intro op hop g
  obtain ⟨d, rfl⟩ := writeOps_mem tmp keys op hop
  exact applyOp_write_ne g tmp d x hx

/-- The canonical path of `StoreCacheToFile` ends up holding exactly the
cache's keys, one per line, most recently used first. -/
lemma store_self (fs : Fs) (c : LruCache) (f : PyStr) :
    StoreCacheToFile fs c f f = some (cacheFileContent c.keys) := by
  unfold StoreCacheToFile storeTrace
  simp only [List.foldl_cons, List.foldl_append, List.foldl_nil]
  rw [applyOp_close_eq, applyOp_rename_dst]
  have htmp : (applyOp fs (FsOp.openTrunc (f ++ ".tmp".toList))) (f ++ ".tmp".toList)
      = some [] := by
    simp [applyOp]
  have hW := foldl_writeOps_self c.keys (f ++ ".tmp".toList)
    (applyOp fs (FsOp.openTrunc (f ++ ".tmp".toList))) [] htmp
  simpa using hW

/-! ## Lemmas about `readlines` and `pyStrip` -/

lemma readlines_newline_terminated (k rest : PyStr) (h : '\n' ∉ k) :
    readlines (k ++ '\n' :: rest) = (k ++ ['\n']) :: readlines rest := by
  induction k with
  | nil => simp [readlines]
  | cons c k ih =>
    have hc : ¬ c = '\n' := fun hc => h (hc ▸ List.mem_cons_self _ _)
    have hk : '\n' ∉ k := fun hk => h (List.mem_cons_of_mem _ hk)
    rw [List.cons_append, readlines, if_neg hc, ih hk]
    simp

lemma readlines_cacheFileContent (keys : List PyStr) (h : ∀ k ∈ keys, '\n' ∉ k) :
    readlines (cacheFileContent keys) = keys.map (fun k => k ++ ['\n']) := by
  induction keys with
  | nil => rfl
  | cons k ks ih =>
    have hstep : cacheFileContent (k :: ks) = k ++ '\n' :: cacheFileContent ks := by
      simp [cacheFileContent, List.append_assoc]
    rw [hstep, readlines_newline_terminated k _ (h k (List.mem_cons_self _ _)),
      ih (fun a ha => h a (List.mem_cons_of_mem _ ha))]
    simp

/-- A string fixed by `pyStrip` has no leading and no trailing
whitespace. -/
lemma pyStrip_parts (k : PyStr) (h : pyStrip k = k) :
    k.dropWhile pyIsSpace = k ∧ k.reverse.dropWhile pyIsSpace = k.reverse := by
  have hrev : (k.dropWhile pyIsSpace).reverse.dropWhile pyIsSpace = k.reverse := by
    have := congrArg List.reverse h
    simpa [pyStrip] using this
  have hlenA : (k.dropWhile pyIsSpace).length ≤ k.length :=
    (List.dropWhile_suffix _).length_le
  have hlenB : ((k.dropWhile pyIsSpace).reverse.dropWhile pyIsSpace).length
      ≤ (k.dropWhile pyIsSpace).length := by
    have := (List.dropWhile_suffix
      (l := (k.dropWhile pyIsSpace).reverse) pyIsSpace).length_le
    simpa using this
  have hlenEq : ((k.dropWhile pyIsSpace).reverse.dropWhile pyIsSpace).length
      = k.length := by
    rw [hrev]
    simp
  have hA : k.dropWhile pyIsSpace = k :=
    (List.dropWhile_suffix _).eq_of_length (by omega)
  refine ⟨hA, ?_⟩
  rw [hA] at hrev
  exact hrev

/-- Appending the line's newline and stripping again recovers a key that
was already stripped. -/
lemma pyStrip_append_newline (k : PyStr) (h : pyStrip k = k) :
    pyStrip (k ++ ['\n']) = k := by
  obtain ⟨hA, hB⟩ := pyStrip_parts k h
  cases k with
  | nil => decide
  | cons a k =>
    have ha : pyIsSpace a = false := by
      cases hpa : pyIsSpace a with
      | false => rfl
      | true =>
        exfalso
        rw [List.dropWhile_cons, if_pos (by simp [hpa])] at hA
        have hlen := congrArg List.length hA
        have hle : (k.dropWhile pyIsSpace).length ≤ k.length :=
          (List.dropWhile_suffix _).length_le
        simp at hlen
        omega
    unfold pyStrip
    rw [List.cons_append, List.dropWhile_cons, if_neg (by simp [ha]),
      ← List.cons_append]
    have hrev : ((a :: k) ++ ['\n']).reverse = '\n' :: (a :: k).reverse := by
      simp
    rw [hrev, List.dropWhile_cons, if_pos (by decide), hB, List.reverse_reverse]

/-- C1: storing a cache and loading it back reproduces the same keys in
the same MRU-to-LRU order, for any cache state whose keys are distinct,
newline-free, whitespace-trimmed, and within the bot's capacity. -/
theorem c1_store_load_round_trip (fs : Fs) (c : LruCache) (f : PyStr)
    (hlen : c.keys.length ≤ MAX_SUBMISSIONS)
    (hnd : c.keys.Nodup)
    (hkeys : ∀ k ∈ c.keys, ('\n' ∉ k) ∧ pyStrip k = k) :
    (LoadCacheFromFile (StoreCacheToFile fs c f) f).keys = c.keys := by
  rw [LoadCacheFromFile_some _ f (cacheFileContent c.keys) (store_self fs c f),
    readlines_cacheFileContent c.keys (fun k hk => (hkeys k hk).1),
    ← List.map_reverse, List.map_map]
  have hmap : c.keys.reverse.map (pyStrip ∘ fun k => k ++ ['\n']) = c.keys.reverse := by
    rw [show c.keys.reverse = c.keys.reverse.map id by simp]
    rw [List.map_map]
    apply List.map_congr_left
    intro a ha
    simp only [Function.comp, id]
    exact pyStrip_append_newline a
      ((hkeys a (by simpa using ha)).2)
  rw [hmap, foldl_lruSet_empty MAX_SUBMISSIONS c.keys.reverse
    (List.nodup_reverse.mpr hnd)]
  rw [List.reverse_reverse]
  exact List.take_of_length_le hlen

/-- Witness for C1: a two-key cache stored to an empty filesystem and
loaded back is unchanged. -/
theorem c1_witness :
    (LoadCacheFromFile
      (StoreCacheToFile (fun _ => none) ⟨MAX_SUBMISSIONS, [ ['a'], ['b'] ]⟩ ['f'])
      ['f']).keys = (⟨MAX_SUBMISSIONS, [ ['a'], ['b'] ]⟩ : LruCache).keys :=
  c1_store_load_round_trip (fun _ => none) ⟨MAX_SUBMISSIONS, [ ['a'], ['b'] ]⟩ ['f']
    (by decide) (by decide) (by decide)

/-- C8: `StoreCacheToFile` is atomic: its operation trace consists of
operations on the temporary file `filename + ".tmp"` (a path different
from the destination) followed by a single final rename; running any
prefix of the pre-rename operations leaves the canonical path exactly
as it was, the temporary file holds the complete key-per-line image
just before the rename, and after the rename the canonical path holds
that image. -/
theorem c8_atomic_persistence (c : LruCache) (f : PyStr) (fs : Fs) :
    (f ++ ".tmp".toList ≠ f) ∧
    storeTrace c f =
      (FsOp.openTrunc (f ++ ".tmp".toList) ::
        (writeOps (f ++ ".tmp".toList) c.keys ++
          [FsOp.close (f ++ ".tmp".toList)])) ++
        [FsOp.rename (f ++ ".tmp".toList) f] ∧
    (∀ n : Nat,
      (((FsOp.openTrunc (f ++ ".tmp".toList) ::
        (writeOps (f ++ ".tmp".toList) c.keys ++
          [FsOp.close (f ++ ".tmp".toList)])).take n).foldl applyOp fs) f = fs f) ∧
    ((FsOp.openTrunc (f ++ ".tmp".toList) ::
        (writeOps (f ++ ".tmp".toList) c.keys ++
          [FsOp.close (f ++ ".tmp".toList)])).foldl applyOp fs)
        (f ++ ".tmp".toList) = some (cacheFileContent c.keys) ∧
    StoreCacheToFile fs c f f = some (cacheFileContent c.keys) := by
  refine ⟨tmp_filename_ne f, ?_, ?_, ?_, store_self fs c f⟩
  · simp [storeTrace, List.append_assoc]
  · intro n
    apply foldl_applyOp_const
    intro op hop g
    have hmem : op ∈ FsOp.openTrunc (f ++ ".tmp".toList) ::
        (writeOps (f ++ ".tmp".toList) c.keys ++ [FsOp.close (f ++ ".tmp".toList)]) :=
      (List.take_sublist n _).mem hop
    have hf : f ≠ f ++ ".tmp".toList := Ne.symm (tmp_filename_ne f)
    rcases List.mem_cons.mp hmem with h1 | h1
    · rw [h1]
      exact applyOp_openTrunc_ne g _ f hf
    · rcases List.mem_append.mp h1 with h2 | h2
      · obtain ⟨d, rfl⟩ := writeOps_mem _ _ op h2
        exact applyOp_write_ne g _ d f hf
      · rcases List.mem_cons.mp h2 with h3 | h3
        · rw [h3, applyOp_close_eq]
        · exact absurd h3 (List.not_mem_nil op)
  · rw [List.foldl_cons, List.foldl_append]
    have htmp : (applyOp fs (FsOp.openTrunc (f ++ ".tmp".toList)))
        (f ++ ".tmp".toList) = some [] := by
      simp [applyOp]
    have hW := foldl_writeOps_self c.keys (f ++ ".tmp".toList)
      (applyOp fs (FsOp.openTrunc (f ++ ".tmp".toList))) [] htmp
    simp only [List.foldl_cons, List.foldl_nil, applyOp_close_eq]
    simpa using hW

/-- C9: when the cache file is missing or unreadable,
`LoadCacheFromFile` returns the empty cache of capacity
`MAX_SUBMISSIONS` instead of raising. -/
theorem c9_load_missing_file (fs : Fs) (f : PyStr) (h : fs f = none) :
    LoadCacheFromFile fs f = lruEmpty MAX_SUBMISSIONS :=
  LoadCacheFromFile_none fs f h

/-- Witness for C9: loading from an empty filesystem yields the empty
cache. -/
theorem c9_witness :
    LoadCacheFromFile (fun _ => none) NEEDS_REVIEW_CACHE_FILE
      = lruEmpty MAX_SUBMISSIONS :=
  c9_load_missing_file (fun _ => none) NEEDS_REVIEW_CACHE_FILE rfl

/-! ## The price extractor -/

/-- C5: `GetPrice` never raises: with no known selector it returns the
empty string without consulting the fetch oracle at all; a failing
fetch, a failing decode, or a failing pattern search each yield the
empty string; and on full success it returns the first capture group
stripped of surrounding whitespace. -/
theorem c5_getprice_never_raises (fetch : PyStr → Option (PyStr × PyStr))
    (decode : PyStr → PyStr → Option PyStr)
    (search : PyStr → PyStr → Option PyStr) (url : PyStr) :
    (ExpiredLinkBot.GetPriceSelector url = [] →
      ExpiredLinkBot.GetPrice fetch decode search url = [] ∧
      ∀ (fetch2 : PyStr → Option (PyStr × PyStr))
        (decode2 : PyStr → PyStr → Option PyStr)
        (search2 : PyStr → PyStr → Option PyStr),
        ExpiredLinkBot.GetPrice fetch decode search url =
          ExpiredLinkBot.GetPrice fetch2 decode2 search2 url) ∧
    (fetch url = none → ExpiredLinkBot.GetPrice fetch decode search url = []) ∧
    (∀ html typeheader, fetch url = some (html, typeheader) →
      decode html (extractEncoding typeheader) = none →
      ExpiredLinkBot.GetPrice fetch decode search url = []) ∧
    (∀ html typeheader decoded, fetch url = some (html, typeheader) →
      decode html (extractEncoding typeheader) = some decoded →
      search (ExpiredLinkBot.GetPriceSelector url) decoded = none →
      ExpiredLinkBot.GetPrice fetch decode search url = []) ∧
    (∀ html typeheader decoded group1,
      ExpiredLinkBot.GetPriceSelector url ≠ [] →
      fetch url = some (html, typeheader) →
      decode html (extractEncoding typeheader) = some decoded →
      search (ExpiredLinkBot.GetPriceSelector url) decoded = some group1 →
      ExpiredLinkBot.GetPrice fetch decode search url = pyStrip group1) := by
  refine ⟨?_, ?_, ?_, ?_, ?_⟩
  · intro h
    constructor
    · simp [ExpiredLinkBot.GetPrice, h]
    · intro fetch2 decode2 search2
      simp [ExpiredLinkBot.GetPrice, h]
  · intro h
    simp only [ExpiredLinkBot.GetPrice, h]
    split <;> rfl
  · intro html typeheader hf hd
    simp only [ExpiredLinkBot.GetPrice, hf, hd]
    split <;> rfl
  · intro html typeheader decoded hf hd hs
    simp only [ExpiredLinkBot.GetPrice, hf, hd, hs]
    split <;> rfl
  · intro html typeheader decoded group1 hsel hf hd hs
    simp only [ExpiredLinkBot.GetPrice, hf, hd, hs,
      List.isEmpty_eq_false.mpr hsel, Bool.false_eq_true, if_false]

/-- Witness for C5: a successful fetch, decode and search on a
recognised URL returns the stripped capture group. -/
theorem c5_witness :
    ExpiredLinkBot.GetPrice (fun _ => some ([], []))
      (fun _ _ => some []) (fun _ _ => some " $5.99 ".toList)
      "http://bookshout.com/b/1".toList = "$5.99".toList := by
  rw [(c5_getprice_never_raises (fun _ => some ([], [])) (fun _ _ => some [])
    (fun _ _ => some " $5.99 ".toList) "http://bookshout.com/b/1".toList).2.2.2.2
    [] [] [] " $5.99 ".toList (by decide) rfl rfl rfl]
  decide

/-- C6: the `GetPriceSelector` dispatch table is ordered: an Amazon
Mobile URL also matches the generic Amazon prefix, yet both copies
return the Amazon Mobile pattern (not the generic `priceLarge` one),
and a URL matching no rule yields the empty string in both copies. -/
theorem c6_dispatch_precedence :
    (∀ url : PyStr, startswith url "http://www.amazon.com/gp/aw/d/".toList →
      startswith url "http://www.amazon.com/".toList ∧
      ExpiredLinkBot.GetPriceSelector url
        = "<b>Price:</b>&nbsp;([^&]*)&nbsp;<br />".toList ∧
      Prices.GetPriceSelector url
        = "<b>Price:</b>&nbsp;([^&]*)&nbsp;<br />".toList ∧
      ExpiredLinkBot.GetPriceSelector url
        ≠ "\\s+class=\"priceLarge\"\\s*>([^<]*)<".toList) ∧
    (∀ url : PyStr,
      ¬ startswith url "http://www.amazon.com/gp/aw/d/".toList →
      ¬ startswithAny url ["http://www.amazon.com/".toList,
        "https://www.amazon.com/".toList,
        "http://amzn.com/".toList,
        "https://amzn.com/".toList,
        "http://www.amazon.co.uk/".toList,
        "https://www.amazon.co.uk/".toList,
        "http://www.amazon.ca/".toList,
        "https://www.amazon.ca/".toList] →
      ¬ startswithAny url ["http://www.smashwords.com/".toList,
        "https://www.smashwords.com/".toList] →
      ¬ startswith url "http://www.barnesandnoble.com/".toList →
      ¬ startswith url "http://bookshout.com".toList →
      ExpiredLinkBot.GetPriceSelector url = [] ∧
      Prices.GetPriceSelector url = []) := by
  constructor
  · intro url h
    have hgen : startswith url "http://www.amazon.com/".toList := by
      rw [startswith, List.isPrefixOf_iff_prefix] at h ⊢
      exact List.IsPrefix.trans (by decide) h
    have hE : ExpiredLinkBot.GetPriceSelector url
        = "<b>Price:</b>&nbsp;([^&]*)&nbsp;<br />".toList := by
      unfold ExpiredLinkBot.GetPriceSelector
      rw [if_pos h]
    have hP : Prices.GetPriceSelector url
        = "<b>Price:</b>&nbsp;([^&]*)&nbsp;<br />".toList := by
      unfold Prices.GetPriceSelector
      rw [if_pos h]
    refine ⟨hgen, hE, hP, ?_⟩
    rw [hE]
    decide
  · intro url h1 h2 h3 h4 h5
    have h2' := h2
    simp only [startswithAny, List.any_cons, List.any_nil, Bool.or_eq_true,
      Bool.or_false, not_or] at h2'
    obtain ⟨hA1, hB1, hA2, hB2, hA3, hA4, hA5, hB3⟩ := h2'
    have h2e : ¬ startswithAny url ["http://www.amazon.com/".toList,
        "http://amzn.com/".toList,
        "http://www.amazon.co.uk/".toList,
        "https://www.amazon.co.uk/".toList,
        "http://www.amazon.ca/".toList] := by
      simp only [startswithAny, List.any_cons, List.any_nil, Bool.or_eq_true,
        Bool.or_false, not_or]
      exact ⟨hA1, hA2, hA3, hA4, hA5⟩
    constructor
    · unfold ExpiredLinkBot.GetPriceSelector
      rw [if_neg h1, if_neg h2e, if_neg h3, if_neg h4, if_neg h5]
    · unfold Prices.GetPriceSelector
      rw [if_neg h1, if_neg h2, if_neg h3, if_neg h4, if_neg h5]

/-- Witness for C6: a concrete mobile Amazon URL takes the mobile
pattern, and an unsupported URL takes no pattern. -/
theorem c6_witness :
    ExpiredLinkBot.GetPriceSelector "http://www.amazon.com/gp/aw/d/B00X".toList
      = "<b>Price:</b>&nbsp;([^&]*)&nbsp;<br />".toList ∧
    ExpiredLinkBot.GetPriceSelector "http://example.com/book".toList = [] :=
  ⟨((c6_dispatch_precedence.1 "http://www.amazon.com/gp/aw/d/B00X".toList
      (by decide)).2.1),
   ((c6_dispatch_precedence.2 "http://example.com/book".toList
      (by decide) (by decide) (by decide) (by decide) (by decide)).1)⟩

/-- The two copies of `IsKnownFree` are the same allow-list. -/
lemma isKnownFree_agree (url : PyStr) :
    ExpiredLinkBot.IsKnownFree url = Prices.IsKnownFree url := rfl

/-- Away from the prefixes on which the two files genuinely differ
(the three `https` Amazon hosts only `prices.py` recognises, and the
smashwords hosts where the patterns differ), the two copies of
`GetPriceSelector` agree. -/
lemma getPriceSelector_agree (url : PyStr)
    (h : ¬ startswithAny url ["https://www.amazon.com/".toList,
      "https://amzn.com/".toList,
      "https://www.amazon.ca/".toList,
      "http://www.smashwords.com/".toList,
      "https://www.smashwords.com/".toList]) :
    ExpiredLinkBot.GetPriceSelector url = Prices.GetPriceSelector url := by
  simp only [startswithAny, List.any_cons, List.any_nil, Bool.or_eq_true,
    Bool.or_false, not_or] at h
  obtain ⟨hB1, hB2, hB3, hS1, hS2⟩ := h
  have hS : ¬ startswithAny url ["http://www.smashwords.com/".toList,
      "https://www.smashwords.com/".toList] := by
    simp only [startswithAny, List.any_cons, List.any_nil, Bool.or_eq_true,
      Bool.or_false, not_or]
    exact ⟨hS1, hS2⟩
  unfold ExpiredLinkBot.GetPriceSelector Prices.GetPriceSelector
  by_cases h1 : startswith url "http://www.amazon.com/gp/aw/d/".toList
  · rw [if_pos h1, if_pos h1]
  · rw [if_neg h1, if_neg h1]
    by_cases hA : startswithAny url ["http://www.amazon.com/".toList,
        "http://amzn.com/".toList,
        "http://www.amazon.co.uk/".toList,
        "https://www.amazon.co.uk/".toList,
        "http://www.amazon.ca/".toList]
    · have h8 : startswithAny url ["http://www.amazon.com/".toList,
          "https://www.amazon.com/".toList,
          "http://amzn.com/".toList,
          "https://amzn.com/".toList,
          "http://www.amazon.co.uk/".toList,
          "https://www.amazon.co.uk/".toList,
          "http://www.amazon.ca/".toList,
          "https://www.amazon.ca/".toList] := by
        simp only [startswithAny, List.any_cons, List.any_nil, Bool.or_eq_true,
          Bool.or_false] at hA ⊢
        tauto
      rw [if_pos hA, if_pos h8]
    · have h8 : ¬ startswithAny url ["http://www.amazon.com/".toList,
          "https://www.amazon.com/".toList,
          "http://amzn.com/".toList,
          "https://amzn.com/".toList,
          "http://www.amazon.co.uk/".toList,
          "https://www.amazon.co.uk/".toList,
          "http://www.amazon.ca/".toList,
          "https://www.amazon.ca/".toList] := by
        simp only [startswithAny, List.any_cons, List.any_nil, Bool.or_eq_true,
          Bool.or_false, not_or] at hA ⊢
        obtain ⟨hA1, hA2, hA3, hA4, hA5⟩ := hA
        exact ⟨hA1, hB1, hA2, hB2, hA3, hA4, hA5, hB3⟩
      rw [if_neg hA, if_neg h8, if_neg hS, if_neg hS]

/-- C10 counterexample: on `"https://www.amazon.com/dp/B00X"` the copy
in `expired_link_bot.py` knows no pattern while the copy in `prices.py`
returns the `priceLarge` pattern, so the two copies are not
extensionally equal. -/
theorem c10_counterexample :
    ExpiredLinkBot.GetPriceSelector "https://www.amazon.com/dp/B00X".toList ≠
      Prices.GetPriceSelector "https://www.amazon.com/dp/B00X".toList := by
  decide

/-- C10 amended: the two copies of `IsKnownFree` are extensionally
equal, and the two copies of `GetPriceSelector` (hence of `GetPrice` on
identical oracles) agree on every URL that does not start with one of
the three `https` Amazon prefixes recognised only by `prices.py` or
with a smashwords prefix, where the two patterns differ. -/
theorem c10_amended_duplicates :
    (∀ url : PyStr, ExpiredLinkBot.IsKnownFree url = Prices.IsKnownFree url) ∧
    (∀ url : PyStr, ¬ startswithAny url ["https://www.amazon.com/".toList,
      "https://amzn.com/".toList,
      "https://www.amazon.ca/".toList,
      "http://www.smashwords.com/".toList,
      "https://www.smashwords.com/".toList] →
      ExpiredLinkBot.GetPriceSelector url = Prices.GetPriceSelector url) ∧
    (∀ (url : PyStr) (fetch : PyStr → Option (PyStr × PyStr))
      (decode : PyStr → PyStr → Option PyStr)
      (search : PyStr → PyStr → Option PyStr),
      ¬ startswithAny url ["https://www.amazon.com/".toList,
        "https://amzn.com/".toList,
        "https://www.amazon.ca/".toList,
        "http://www.smashwords.com/".toList,
        "https://www.smashwords.com/".toList] →
      ExpiredLinkBot.GetPrice fetch decode search url
        = Prices.GetPrice fetch decode search url) := by
  refine ⟨isKnownFree_agree, getPriceSelector_agree, ?_⟩
  intro url fetch decode search h
  unfold ExpiredLinkBot.GetPrice Prices.GetPrice
  rw [getPriceSelector_agree url h]

/-- Witness for C10's amended statement: on a bookshout URL the two
copies agree. -/
theorem c10_witness :
    ExpiredLinkBot.GetPriceSelector "http://bookshout.com/b/2".toList
      = Prices.GetPriceSelector "http://bookshout.com/b/2".toList :=
  c10_amended_duplicates.2.1 "http://bookshout.com/b/2".toList (by decide)

/-! ## Lemmas about the decision pipeline -/

lemma processSubmission_ignore_still_free (TEST_DATA DRY_RUN : Bool)
    (fetch : PyStr → Option (PyStr × PyStr))
    (decode : PyStr → PyStr → Option PyStr)
    (search : PyStr → PyStr → Option PyStr) (iri2uri : PyStr → PyStr)
    (st : CheckState) (rank : Nat) (sub : Submission)
    (hskip : ¬ ((sub.linkFlairCssClass = some EXPIRED_CSS_CLASS ∨
        lruContains st.alreadyExpiredCache (iri2uri sub.url)) ∧ ¬ TEST_DATA))
    (hprice : ExpiredLinkBot.GetPrice fetch decode search (iri2uri sub.url) ≠ [])
    (hz : ¬ hasNonzeroDigit
      (ExpiredLinkBot.GetPrice fetch decode search (iri2uri sub.url))) :
    processSubmission TEST_DATA DRY_RUN fetch decode search iri2uri st (rank, sub)
      = st := by
  have hne : ¬ ((ExpiredLinkBot.GetPrice fetch decode search
      (iri2uri sub.url)).isEmpty = true) :=
    fun he => hprice (List.isEmpty_iff.mp he)
  unfold processSubmission
  dsimp only
  rw [if_neg hskip, if_neg hne, if_pos hz]

lemma processSubmission_expire_modified (TEST_DATA DRY_RUN : Bool)
    (fetch : PyStr → Option (PyStr × PyStr))
    (decode : PyStr → PyStr → Option PyStr)
    (search : PyStr → PyStr → Option PyStr) (iri2uri : PyStr → PyStr)
    (st : CheckState) (rank : Nat) (sub : Submission)
    (hskip : ¬ ((sub.linkFlairCssClass = some EXPIRED_CSS_CLASS ∨
        lruContains st.alreadyExpiredCache (iri2uri sub.url)) ∧ ¬ TEST_DATA))
    (hprice : ExpiredLinkBot.GetPrice fetch decode search (iri2uri sub.url) ≠ [])
    (hz : hasNonzeroDigit
      (ExpiredLinkBot.GetPrice fetch decode search (iri2uri sub.url))) :
    (processSubmission TEST_DATA DRY_RUN fetch decode search iri2uri st
        (rank, sub)).modified
      = st.modified ++ [({ sub with url := iri2uri sub.url }, rank,
          ExpiredLinkBot.GetPrice fetch decode search (iri2uri sub.url))] := by
  have hne : ¬ ((ExpiredLinkBot.GetPrice fetch decode search
      (iri2uri sub.url)).isEmpty = true) :=
    fun he => hprice (List.isEmpty_iff.mp he)
  unfold processSubmission
  dsimp only
  rw [if_neg hskip, if_neg hne, if_neg (fun hc => hc hz)]
  by_cases hd : DRY_RUN
  · simp [hd]
  · simp [hd]

/-- C2: for a post that is not skipped and whose extracted price string
is non-empty, the loop body leaves the whole state unchanged (ignore)
exactly when the price contains none of the characters '1' through '9',
and appends the post, with its price recorded, to the expired output
list exactly when it contains at least one of them. -/
theorem c2_price_classification (TEST_DATA DRY_RUN : Bool)
    (fetch : PyStr → Option (PyStr × PyStr))
    (decode : PyStr → PyStr → Option PyStr)
    (search : PyStr → PyStr → Option PyStr) (iri2uri : PyStr → PyStr)
    (st : CheckState) (rank : Nat) (sub : Submission)
    (hskip : ¬ ((sub.linkFlairCssClass = some EXPIRED_CSS_CLASS ∨
        lruContains st.alreadyExpiredCache (iri2uri sub.url)) ∧ ¬ TEST_DATA))
    (hprice : ExpiredLinkBot.GetPrice fetch decode search (iri2uri sub.url) ≠ []) :
    (¬ ("123456789".toList.any (fun digit =>
        (ExpiredLinkBot.GetPrice fetch decode search
          (iri2uri sub.url)).contains digit)) →
      processSubmission TEST_DATA DRY_RUN fetch decode search iri2uri st (rank, sub)
        = st) ∧
    (("123456789".toList.any (fun digit =>
        (ExpiredLinkBot.GetPrice fetch decode search
          (iri2uri sub.url)).contains digit)) →
      (processSubmission TEST_DATA DRY_RUN fetch decode search iri2uri st
          (rank, sub)).modified
        = st.modified ++ [({ sub with url := iri2uri sub.url }, rank,
            ExpiredLinkBot.GetPrice fetch decode search (iri2uri sub.url))]) := by
  constructor
  · intro hz
    exact processSubmission_ignore_still_free TEST_DATA DRY_RUN fetch decode search
      iri2uri st rank sub hskip hprice hz
  · intro hz
    exact processSubmission_expire_modified TEST_DATA DRY_RUN fetch decode search
      iri2uri st rank sub hskip hprice hz

/-- Witness for C2: a priced post is appended with its price; an
all-zero price leaves the state unchanged. -/
theorem c2_witness :
    (processSubmission false true sampleFetch sampleDecode samplePaidSearch idUri
        sampleState (0, sampleSub)).modified
      = sampleState.modified ++ [({ sampleSub with url := idUri sampleSub.url }, 0,
          ExpiredLinkBot.GetPrice sampleFetch sampleDecode samplePaidSearch
            (idUri sampleSub.url))] ∧
    processSubmission false true sampleFetch sampleDecode sampleFreeSearch idUri
        sampleState (0, sampleSub) = sampleState := by
  constructor
  · exact (c2_price_classification false true sampleFetch sampleDecode
      samplePaidSearch idUri sampleState 0 sampleSub (by decide) (by decide)).2
      (by decide)
  · exact (c2_price_classification false true sampleFetch sampleDecode
      sampleFreeSearch idUri sampleState 0 sampleSub (by decide) (by decide)).1
      (by decide)

lemma processSubmission_known_free (TEST_DATA DRY_RUN : Bool)
    (fetch : PyStr → Option (PyStr × PyStr))
    (decode : PyStr → PyStr → Option PyStr)
    (search : PyStr → PyStr → Option PyStr) (iri2uri : PyStr → PyStr)
    (st : CheckState) (rank : Nat) (sub : Submission)
    (hskip : ¬ ((sub.linkFlairCssClass = some EXPIRED_CSS_CLASS ∨
        lruContains st.alreadyExpiredCache (iri2uri sub.url)) ∧ ¬ TEST_DATA))
    (hprice : ExpiredLinkBot.GetPrice fetch decode search (iri2uri sub.url) = [])
    (hfree : ExpiredLinkBot.IsKnownFree (iri2uri sub.url)) :
    processSubmission TEST_DATA DRY_RUN fetch decode search iri2uri st (rank, sub)
      = st := by
  unfold processSubmission
  dsimp only
  rw [if_neg hskip, if_pos (List.isEmpty_iff.mpr hprice), if_pos hfree]

lemma processSubmission_needs_review (TEST_DATA DRY_RUN : Bool)
    (fetch : PyStr → Option (PyStr × PyStr))
    (decode : PyStr → PyStr → Option PyStr)
    (search : PyStr → PyStr → Option PyStr) (iri2uri : PyStr → PyStr)
    (st : CheckState) (rank : Nat) (sub : Submission)
    (hskip : ¬ ((sub.linkFlairCssClass = some EXPIRED_CSS_CLASS ∨
        lruContains st.alreadyExpiredCache (iri2uri sub.url)) ∧ ¬ TEST_DATA))
    (hprice : ExpiredLinkBot.GetPrice fetch decode search (iri2uri sub.url) = [])
    (hfree : ¬ ExpiredLinkBot.IsKnownFree (iri2uri sub.url)) :
    processSubmission TEST_DATA DRY_RUN fetch decode search iri2uri st (rank, sub)
      = { st with
            needsReview :=
              if ¬ lruContains st.needsReviewCache (iri2uri sub.url) then
                st.needsReview ++ [({ sub with url := iri2uri sub.url }, rank)]
              else st.needsReview,
            needsReviewCache := lruSet st.needsReviewCache (iri2uri sub.url) } := by
  unfold processSubmission
  dsimp only
  rw [if_neg hskip, if_pos (List.isEmpty_iff.mpr hprice), if_neg hfree]

/-- C3: for a post that is not skipped and whose extracted price is
empty, a known-free URL is ignored with no mutation at all; otherwise
the post goes to the needs-review output list exactly when its URL is
not yet in the needs-review cache, and in either sub-case its URL is
unconditionally inserted/touched to the most-recently-used position of
the needs-review cache (the rest of the state, in particular the
already-expired cache, unchanged). -/
theorem c3_empty_price_branch (TEST_DATA DRY_RUN : Bool)
    (fetch : PyStr → Option (PyStr × PyStr))
    (decode : PyStr → PyStr → Option PyStr)
    (search : PyStr → PyStr → Option PyStr) (iri2uri : PyStr → PyStr)
    (st : CheckState) (rank : Nat) (sub : Submission)
    (hskip : ¬ ((sub.linkFlairCssClass = some EXPIRED_CSS_CLASS ∨
        lruContains st.alreadyExpiredCache (iri2uri sub.url)) ∧ ¬ TEST_DATA))
    (hprice : ExpiredLinkBot.GetPrice fetch decode search (iri2uri sub.url) = []) :
    (ExpiredLinkBot.IsKnownFree (iri2uri sub.url) →
      processSubmission TEST_DATA DRY_RUN fetch decode search iri2uri st (rank, sub)
        = st) ∧
    (¬ ExpiredLinkBot.IsKnownFree (iri2uri sub.url) →
      processSubmission TEST_DATA DRY_RUN fetch decode search iri2uri st (rank, sub)
        = { st with
              needsReview :=
                if ¬ lruContains st.needsReviewCache (iri2uri sub.url) then
                  st.needsReview ++ [({ sub with url := iri2uri sub.url }, rank)]
                else st.needsReview,
              needsReviewCache := lruSet st.needsReviewCache (iri2uri sub.url) } ∧
      (¬ lruContains st.needsReviewCache (iri2uri sub.url) →
        (processSubmission TEST_DATA DRY_RUN fetch decode search iri2uri st
            (rank, sub)).needsReview
          = st.needsReview ++ [({ sub with url := iri2uri sub.url }, rank)]) ∧
      (lruContains st.needsReviewCache (iri2uri sub.url) →
        (processSubmission TEST_DATA DRY_RUN fetch decode search iri2uri st
            (rank, sub)).needsReview = st.needsReview) ∧
      (processSubmission TEST_DATA DRY_RUN fetch decode search iri2uri st
          (rank, sub)).needsReviewCache
        = lruSet st.needsReviewCache (iri2uri sub.url) ∧
      (processSubmission TEST_DATA DRY_RUN fetch decode search iri2uri st
          (rank, sub)).alreadyExpiredCache = st.alreadyExpiredCache ∧
      (processSubmission TEST_DATA DRY_RUN fetch decode search iri2uri st
          (rank, sub)).modified = st.modified ∧
      (processSubmission TEST_DATA DRY_RUN fetch decode search iri2uri st
          (rank, sub)).effects = st.effects) := by
  constructor
  · intro hfree
    exact processSubmission_known_free TEST_DATA DRY_RUN fetch decode search iri2uri
      st rank sub hskip hprice hfree
  · intro hfree
    have hrec := processSubmission_needs_review TEST_DATA DRY_RUN fetch decode search
      iri2uri st rank sub hskip hprice hfree
    refine ⟨hrec, ?_, ?_, ?_, ?_, ?_, ?_⟩
    · intro hmem
      rw [hrec]
      simp [hmem]
    · intro hmem
      rw [hrec]
      simp [hmem]
    · rw [hrec]
    · rw [hrec]
    · rw [hrec]
    · rw [hrec]

/-- Witness for C3: a known-free post changes nothing; an unsupported
post is queued for review and cached. -/
theorem c3_witness :
    processSubmission false true sampleNoneFetch sampleDecode samplePaidSearch idUri
        sampleState (0, sampleFreeSub) = sampleState ∧
    (processSubmission false true sampleNoneFetch sampleDecode samplePaidSearch idUri
        sampleState (1, sampleUnknownSub)).needsReview
      = sampleState.needsReview
          ++ [({ sampleUnknownSub with url := idUri sampleUnknownSub.url }, 1)] := by
  constructor
  · exact (c3_empty_price_branch false true sampleNoneFetch sampleDecode
      samplePaidSearch idUri sampleState 0 sampleFreeSub (by decide) (by decide)).1
      (by decide)
  · exact ((c3_empty_price_branch false true sampleNoneFetch sampleDecode
      samplePaidSearch idUri sampleState 1 sampleUnknownSub (by decide) (by decide)).2
      (by decide)).2.1 (by decide)

lemma processSubmission_dry_run_step (TEST_DATA : Bool)
    (fetch : PyStr → Option (PyStr × PyStr))
    (decode : PyStr → PyStr → Option PyStr)
    (search : PyStr → PyStr → Option PyStr) (iri2uri : PyStr → PyStr)
    (st : CheckState) (r : Nat × Submission) :
    (processSubmission TEST_DATA true fetch decode search iri2uri st r).effects
      = st.effects ∧
    (processSubmission TEST_DATA true fetch decode search iri2uri st r).alreadyExpiredCache
      = st.alreadyExpiredCache := by
  unfold processSubmission
  dsimp only
  split_ifs <;> simp_all

lemma foldl_processSubmission_dry_run (TEST_DATA : Bool)
    (fetch : PyStr → Option (PyStr × PyStr))
    (decode : PyStr → PyStr → Option PyStr)
    (search : PyStr → PyStr → Option PyStr) (iri2uri : PyStr → PyStr)
    (rs : List (Nat × Submission)) (st : CheckState) :
    ((rs.foldl (processSubmission TEST_DATA true fetch decode search iri2uri)
        st).effects = st.effects) ∧
    ((rs.foldl (processSubmission TEST_DATA true fetch decode search iri2uri)
        st).alreadyExpiredCache = st.alreadyExpiredCache) := by
  induction rs generalizing st with
  | nil => exact ⟨rfl, rfl⟩
  | cons r rs ih =>
    simp only [List.foldl_cons]
    obtain ⟨h1, h2⟩ := processSubmission_dry_run_step TEST_DATA fetch decode search
      iri2uri st r
    obtain ⟨ih1, ih2⟩ := ih
      (processSubmission TEST_DATA true fetch decode search iri2uri st r)
    exact ⟨ih1.trans h1, ih2.trans h2⟩

/-- C7: in dry-run mode `CheckSubmissions` posts no comment, sets no
flair, leaves the already-expired cache exactly as loaded, and writes
neither cache file (persistence is also skipped whenever the test-data
flag is set), while in every mode an expired post is still appended to
the expired output list with its price recorded. -/
theorem c7_dry_run_frame
    (fetch : PyStr → Option (PyStr × PyStr))
    (decode : PyStr → PyStr → Option PyStr)
    (search : PyStr → PyStr → Option PyStr) (iri2uri : PyStr → PyStr)
    (fs : Fs) (listing : List Submission) :
    (∀ TEST_DATA : Bool,
      (CheckSubmissions TEST_DATA true fetch decode search iri2uri fs
        listing).1.effects = [] ∧
      (CheckSubmissions TEST_DATA true fetch decode search iri2uri fs
          listing).1.alreadyExpiredCache
        = LoadCacheFromFile fs ALREADY_EXPIRED_CACHE_FILE ∧
      (CheckSubmissions TEST_DATA true fetch decode search iri2uri fs listing).2
        = fs) ∧
    (∀ DRY_RUN : Bool,
      (CheckSubmissions true DRY_RUN fetch decode search iri2uri fs listing).2
        = fs) ∧
    (∀ (TEST_DATA DRY_RUN : Bool) (st : CheckState) (rank : Nat) (sub : Submission),
      ¬ ((sub.linkFlairCssClass = some EXPIRED_CSS_CLASS ∨
          lruContains st.alreadyExpiredCache (iri2uri sub.url)) ∧ ¬ TEST_DATA) →
      ExpiredLinkBot.GetPrice fetch decode search (iri2uri sub.url) ≠ [] →
      hasNonzeroDigit
        (ExpiredLinkBot.GetPrice fetch decode search (iri2uri sub.url)) →
      (processSubmission TEST_DATA DRY_RUN fetch decode search iri2uri st
          (rank, sub)).modified
        = st.modified ++ [({ sub with url := iri2uri sub.url }, rank,
            ExpiredLinkBot.GetPrice fetch decode search (iri2uri sub.url))]) := by
  refine ⟨?_, ?_, ?_⟩
  · intro TEST_DATA
    unfold CheckSubmissions
    dsimp only
    rw [if_neg (fun hc => hc.1 rfl)]
    have hfold := foldl_processSubmission_dry_run TEST_DATA fetch decode search
      iri2uri ((listing.take MAX_SUBMISSIONS).enum)
      ⟨[], [], LoadCacheFromFile fs NEEDS_REVIEW_CACHE_FILE,
        LoadCacheFromFile fs ALREADY_EXPIRED_CACHE_FILE, []⟩
    exact ⟨hfold.1, hfold.2, rfl⟩
  · intro DRY_RUN
    unfold CheckSubmissions
    dsimp only
    rw [if_neg (fun hc => hc.2 rfl)]
  · intro TEST_DATA DRY_RUN st rank sub hskip hprice hz
    exact processSubmission_expire_modified TEST_DATA DRY_RUN fetch decode search
      iri2uri st rank sub hskip hprice hz

/-- Witness for C7: with the paid-price oracles, a dry run over one
submission performs no effect and writes nothing, and the post is still
appended to the expired list even in make-changes mode. -/
theorem c7_witness :
    (CheckSubmissions false true sampleFetch sampleDecode samplePaidSearch idUri
      (fun _ => none) [sampleSub]).1.effects = [] ∧
    (processSubmission false false sampleFetch sampleDecode samplePaidSearch idUri
        sampleState (0, sampleSub)).modified
      = sampleState.modified ++ [({ sampleSub with url := idUri sampleSub.url }, 0,
          ExpiredLinkBot.GetPrice sampleFetch sampleDecode samplePaidSearch
            (idUri sampleSub.url))] := by
  constructor
  · exact (c7_dry_run_frame sampleFetch sampleDecode samplePaidSearch idUri
      (fun _ => none) [sampleSub]).1 false |>.1
  · exact (c7_dry_run_frame sampleFetch sampleDecode samplePaidSearch idUri
      (fun _ => none) [sampleSub]).2.2 false false sampleState 0 sampleSub
      (by decide) (by decide) (by decide)
